import Mathlib

/-!
Shallow embedding of the vesu-v2-liquidator position state machine and
liquidation decision engine.

Conventions of the embedding:

* `rust_decimal::Decimal` is modeled as `ℚ`.  Every Decimal value is an exact
  rational; addition, subtraction, multiplication and comparison on Decimal
  are exact and agree with `ℚ`.  The `Div` implementation of `rust_decimal`
  panics on a zero divisor ("Division by zero"); a panicking division is
  modeled by `decDiv`, which returns `none` exactly when the divisor is zero
  (the only panics relevant to the verified claims; the rounding `rust_decimal`
  performs beyond 28 fractional digits is unreachable for the integral
  on-chain deltas scaled by 10^18 that this program handles).
* `starknet::core::types::Felt` (a field element used only for identity and
  equality here) is modeled as `ℕ`.
* `std::hash::DefaultHasher` digests of a tuple of Felts (used for the
  position key) are modeled by the tuple itself: the program only ever
  compares digests for equality, and the spec treats the digest as a derived
  composite key of the tuple.
* Asynchronous fallible collaborator calls (the pair-config fetch, the
  liquidation submission) are modeled by explicit `Option` / `Except`
  parameters holding that call's outcome.
* `tracing` log statements are pure observations: they are dropped where they
  carry no data flow, and reified as explicit log values where a claim is
  about them (the sweep's failure classification).
-/

namespace VesuLiquidator

/-- Decimal values of `rust_decimal` are exact scaled rationals; see the
header comment. -/
abbrev Decimal := ℚ

/-- Division of two `Decimal`s. `rust_decimal`'s `Div` panics on a zero
divisor, which we model as `none`. -/
def decDiv (a b : Decimal) : Option Decimal :=
  if b = 0 then none else some (a / b)

/-- The `Currency` enum of `src/types/currency.rs` (all 21 variants). -/
inductive Currency where
  | USDC
  | USDC_E
  | USDT
  | STRK
  | xSTRK
  | ETH
  | wstETH
  | WBTC
  | tBTC
  | uniBTC
  | solvBTC
  | LBTC
  | xsBTC
  | xWBTC
  | xtBTC
  | mRe7BTC
  | xLBTC
  | YBTC_B
  | mRe7YIELD
  | USN
  | sUSN
deriving DecidableEq, Repr

/-- The state of the `VESU_PRICES` cache as seen by one price lookup: a USD
price for every `Currency`.  `Currency::price()` forwards to
`VESU_PRICES.of(currency)`; no `Currency` variant serializes to the reserved
ticker "USD", so the `of_ticker` special case for "USD" is unreachable from
`Currency::price()` and the lookup is a plain map read. -/
def Prices : Type := Currency → Decimal

/-- The `PoolName` enum of `src/types/pool.rs`. -/
inductive PoolName where
  | Prime
  | Re7USDCPrime
  | Re7USDCCore
  | Re7xBTC
  | Re7USDCStableCore
  | Re7USDCFrontier
deriving DecidableEq, Repr

/-- Rust `PoolName::pool_address` of `src/types/pool.rs` (the six on-chain pool
address constants, as numerals). -/
def PoolName.pool_address : PoolName → ℕ
  | .Prime =>
      0x451fe483d5921a2919ddd81d0de6696669bccdacd859f72a4fba7656b97c3b5
  | .Re7USDCPrime =>
      0x02eef0c13b10b487ea5916b54c0a7f98ec43fb3048f60fdeedaf5b08f6f88aaf
  | .Re7USDCCore =>
      0x03976cac265a12609934089004df458ea29c776d77da423c96dc761d09d24124
  | .Re7xBTC =>
      0x03a8416bf20d036df5b1cf3447630a2e1cb04685f6b0c3a70ed7fb1473548ecf
  | .Re7USDCStableCore =>
      0x073702fce24aba36da1eac539bd4bae62d4d6a76747b7cdd3e016da754d7a135
  | .Re7USDCFrontier =>
      0x05c03e7e0ccfe79c634782388eb1e6ed4e8e2a013ab0fcc055140805e46261bd

/-- Rust `TryFrom<&Felt> for PoolName` of `src/types/pool.rs`: `none` models the
`bail!("Unknown VesuPool ...")` error branch. -/
def PoolName.try_from (value : ℕ) : Option PoolName :=
  if value = PoolName.Prime.pool_address then some .Prime
  else if value = PoolName.Re7USDCPrime.pool_address then some .Re7USDCPrime
  else if value = PoolName.Re7USDCCore.pool_address then some .Re7USDCCore
  else if value = PoolName.Re7xBTC.pool_address then some .Re7xBTC
  else if value = PoolName.Re7USDCStableCore.pool_address then
    some .Re7USDCStableCore
  else if value = PoolName.Re7USDCFrontier.pool_address then
    some .Re7USDCFrontier
  else none

/-- The part of `StarknetEventMetadata` (an `evian` type) the monitoring and
indexer loops read: the emitting pool address and the block number. -/
structure StarknetEventMetadata where
  from_address : ℕ
  block_number : ℕ
deriving DecidableEq, Repr

/-- Rust `OnchainAssetConfig` of `src/config/onchain_assets.rs`.  The source
stores `ticker` as a `String` that `Currency::from_str` parses; the parse
always succeeds for the shipped `assets.toml` (a failure panics), so the
ticker is modeled directly as a `Currency`. -/
structure OnchainAssetConfig where
  name : String
  ticker : Currency
  decimals : ℕ
  address : ℕ
deriving DecidableEq, Repr

/-- The two lookup maps `OnchainAssets` builds from `assets.toml`
(`by_address` and `by_ticker`), totalized: an absent key panics in the
source (`Index` impls), which is outside the verified claims. -/
structure AssetsEnv where
  by_address : ℕ → OnchainAssetConfig
  by_ticker : Currency → OnchainAssetConfig

/-- The `Asset` struct of `src/types/position.rs`. -/
structure Asset where
  name : String
  currency : Currency
  address : ℕ
  decimals : Decimal
  amount : Decimal
deriving DecidableEq, Repr

/-- Rust `Asset::from_address`: look the address up in `ONCHAIN_ASSETS`, parse the
ticker into a `Currency`, and take name / decimals / address from the config
(`currency.d_decimals()` and `currency.address()` re-index `ONCHAIN_ASSETS`
by the ticker).  The balance starts at zero. -/
def Asset.from_address (env : AssetsEnv) (address : ℕ) : Asset :=
  let config := env.by_address address
  let currency := config.ticker
  { name := config.name
    currency := currency
    address := (env.by_ticker currency).address
    decimals := ((env.by_ticker currency).decimals : Decimal)
    amount := 0 }

/-- Rust `Asset::apply_delta`. -/
def Asset.apply_delta (a : Asset) (amount_delta : Decimal) : Asset :=
  { a with amount := a.amount + amount_delta }

/-- The `PositionDelta` struct of `src/services/indexer/mod.rs`. -/
structure PositionDelta where
  collateral_address : ℕ
  debt_address : ℕ
  user_address : ℕ
  collateral_delta : Decimal
  debt_delta : Decimal
deriving DecidableEq, Repr

/-- Rust `VESU_SCALE`: the constant `dec!(18)` used as the exponent of the
normalization divisor, modeled as the natural number 18. -/
def VESU_SCALE : ℕ := 18

/-- The free function `scale` of `src/types/position.rs`:
`nb / Decimal::TEN.pow(scale)`.  The divisor `10 ^ s` is never zero, so
this division never panics. -/
def scale (nb : Decimal) (s : ℕ) : Decimal :=
  nb / 10 ^ s

/-- The `VesuPosition` struct of `src/types/position.rs`. -/
structure VesuPosition where
  user_address : ℕ
  pool_name : PoolName
  collateral : Asset
  debt : Asset
  lltv : Decimal
deriving DecidableEq, Repr

/-- Rust `VesuPosition::update_from_delta`: scale both raw deltas by
`VESU_SCALE` and apply them to the two asset balances. -/
def VesuPosition.update_from_delta (p : VesuPosition) (delta : PositionDelta) :
    VesuPosition :=
  let collateral_delta := scale delta.collateral_delta VESU_SCALE
  let debt_delta := scale delta.debt_delta VESU_SCALE
  { p with
    collateral := p.collateral.apply_delta collateral_delta
    debt := p.debt.apply_delta debt_delta }

/-- Rust `VesuPosition::is_closed`: collateral amount zero or negative. -/
def VesuPosition.is_closed (p : VesuPosition) : Bool :=
  decide (p.collateral.amount = 0) || decide (p.collateral.amount < 0)

/-- The tuple hashed by `VesuPosition::position_id` and by
`MonitoringService::compute_position_key`; the digest is modeled by the
tuple itself (see the header comment). -/
abbrev PositionKey := ℕ × ℕ × ℕ × ℕ

/-- Rust `VesuPosition::position_id`: digest of
(pool address, collateral address, debt address, user address). -/
def VesuPosition.position_id (p : VesuPosition) : PositionKey :=
  (p.pool_name.pool_address, p.collateral.address, p.debt.address,
    p.user_address)

/-- Rust `VesuPosition::collateral_value_in_usd`. -/
def VesuPosition.collateral_value_in_usd (pr : Prices) (p : VesuPosition) :
    Decimal :=
  p.collateral.amount * pr p.collateral.currency

/-- Rust `VesuPosition::debt_value_in_usd`. -/
def VesuPosition.debt_value_in_usd (pr : Prices) (p : VesuPosition) :
    Decimal :=
  p.debt.amount * pr p.debt.currency

/-- Rust `VesuPosition::ltv`: `debt_value_in_usd / collateral_value_in_usd`,
with the panicking zero-divisor division made explicit (`none` = panic). -/
def VesuPosition.ltv (pr : Prices) (p : VesuPosition) : Option Decimal :=
  decDiv (p.debt_value_in_usd pr) (p.collateral_value_in_usd pr)

/-- Rust `VesuPosition::liquidation_price`:
`(debt.amount * debt_price) / (collateral.amount * lltv)`, with the
panicking zero-divisor division made explicit (`none` = panic).  The
source evaluates this division unconditionally. -/
def VesuPosition.liquidation_price (pr : Prices) (p : VesuPosition) :
    Option Decimal :=
  let debt_price := pr p.debt.currency
  decDiv (p.debt.amount * debt_price) (p.collateral.amount * p.lltv)

/-- Rust `VesuPosition::is_liquidable`, line for line: return `false` when
`lltv` is zero; otherwise compute `ltv()` (which panics — `none` — when the
collateral USD value is zero); when the computed ratio is zero return
whether the debt amount is nonzero; otherwise compare `ltv >= lltv`.  The
"almost liquidable" computation only feeds a log line and carries no data
flow, so it is dropped here. -/
def VesuPosition.is_liquidable (pr : Prices) (p : VesuPosition) :
    Option Bool :=
  if p.lltv = 0 then some false
  else
    match p.ltv pr with
    | none => none
    | some r =>
      if r = 0 then some (decide (p.debt.amount ≠ 0))
      else some (decide (p.lltv ≤ r))

/-- Rust `VesuPosition::update_lltv`: the `pair_config` collaborator call is
modeled by its outcome `fetch` (`none` = the call failed); on success the
position's `lltv` becomes the fetched `max_ltv` (the zero-max-LTV warning
log carries no data flow). -/
def VesuPosition.update_lltv (fetch : Option Decimal) (p : VesuPosition) :
    Option VesuPosition :=
  fetch.map (fun max_ltv => { p with lltv := max_ltv })

/-- Rust `VesuPosition::new`: build the position with zero balances and zero
lltv, fetch the lltv (`none` on fetch error), `ensure!` it is nonzero
(`none` when the fetch returned zero), then apply the triggering delta.
The `expect` on `PoolName::try_from` panics for an unknown pool; the
monitoring loop has already bailed on unknown pools before calling `new`,
and the panic is modeled as `none`. -/
def VesuPosition.new (env : AssetsEnv) (fetch : Option Decimal)
    (event_metadata : StarknetEventMetadata) (event : PositionDelta) :
    Option VesuPosition :=
  match PoolName.try_from event_metadata.from_address with
  | none => none
  | some pool =>
    let base : VesuPosition :=
      { user_address := event.user_address
        pool_name := pool
        collateral := Asset.from_address env event.collateral_address
        debt := Asset.from_address env event.debt_address
        lltv := 0 }
    match base.update_lltv fetch with
    | none => none
    | some p =>
      if p.lltv = 0 then none
      else some (p.update_from_delta event)

/-- The `current_positions` map of `MonitoringService`
(`HashMap<(PoolName, String), VesuPosition>`), modeled as a total lookup
function. -/
def PosStore : Type := PoolName × PositionKey → Option VesuPosition

/-- Rust `HashMap::insert` on the store. -/
def store_insert (s : PosStore) (k : PoolName × PositionKey)
    (p : VesuPosition) : PosStore :=
  fun k2 => if k2 = k then some p else s k2

/-- Rust `HashMap::remove` on the store. -/
def store_remove (s : PosStore) (k : PoolName × PositionKey) : PosStore :=
  fun k2 => if k2 = k then none else s k2

/-- Rust `MonitoringService::compute_position_key`: digest of
(emitting address, collateral address, debt address, user address). -/
def compute_position_key (from_address : ℕ) (position_event : PositionDelta) :
    PositionKey :=
  (from_address, position_event.collateral_address,
    position_event.debt_address, position_event.user_address)

/-- The delta-processing arm of `MonitoringService::run_forever`
(`src/services/monitoring/mod.rs`, the `rx_from_indexer.recv()` branch):
derive the pool (the `?` on `PoolName::try_from` aborts the loop — `none`),
compute the position key; if the key is present apply the delta in place,
otherwise construct a new position (`fetch` is the outcome of this event's
`pair_config` call) and insert it under `position.position_id()` — on
construction failure only an error is logged and nothing is inserted; then
re-read the key and remove the entry if the position there is closed. -/
def process_delta (env : AssetsEnv) (fetch : Option Decimal) (s : PosStore)
    (event_metadata : StarknetEventMetadata) (event : PositionDelta) :
    Option PosStore :=
  match PoolName.try_from event_metadata.from_address with
  | none => none
  | some pool =>
    let position_key := compute_position_key event_metadata.from_address event
    let s1 : PosStore :=
      match s (pool, position_key) with
      | some position =>
        store_insert s (pool, position_key) (position.update_from_delta event)
      | none =>
        match VesuPosition.new env fetch event_metadata event with
        | some position => store_insert s (pool, position.position_id) position
        | none => s
    let to_close : Bool :=
      match s1 (pool, position_key) with
      | some position => position.is_closed
      | none => false
    some (if to_close then store_remove s1 (pool, position_key) else s1)

/-- The characters of the marker `"not-undercollateralized"` that the sweep
looks for inside a liquidation failure's textual payload. -/
def NOT_UNDERCOLLATERALIZED : List Char :=
  String.toList "not-undercollateralized"

/-- Whether the character sequence `needle` appears at the start of a
sequence. -/
def seq_starts_with : List Char → List Char → Bool
  | [], _ => true
  | _ :: _, [] => false
  | a :: as, b :: bs => a == b && seq_starts_with as bs

/-- Whether the character sequence `needle` appears anywhere inside the
haystack (the model of `str::contains` for a literal pattern). -/
def seq_contains (needle : List Char) : List Char → Bool
  | [] => needle.isEmpty
  | c :: rest => seq_starts_with needle (c :: rest) || seq_contains needle rest

/-- The three log signals the sweep can emit for one liquidation attempt. -/
inductive SweepLog where
  | warn_not_undercollateralized
  | error_could_not_liquidate (msg : List Char)
  | info_liquidated (tx : ℕ)
deriving DecidableEq, Repr

/-- How the sweep reports one `liquidate_position` outcome
(`src/services/monitoring/mod.rs`, lines 115–124): success logs the tx;
a failure whose text contains `"not-undercollateralized"` logs a warning;
every other failure logs an error. -/
def liquidation_log (res : Except (List Char) ℕ) : SweepLog :=
  match res with
  | .ok tx => .info_liquidated tx
  | .error e =>
    if seq_contains NOT_UNDERCOLLATERALIZED e then
      .warn_not_undercollateralized
    else
      .error_could_not_liquidate e

/-- What one sweep tick produced: the positions on which `is_liquidable`
was invoked, the per-attempt log signals, and the position store the loop
continues with (the tick arm never mutates `current_positions`). -/
structure TickOutcome where
  evaluated : List VesuPosition
  logs : List (VesuPosition × SweepLog)
  positions_after : List VesuPosition
deriving DecidableEq, Repr

/-- The per-position body of the sweep: skip closed positions; invoke
`is_liquidable` on the rest (a panicking evaluation, `none`, aborts the
tick); submit one liquidation per liquidable position — `liq` is the
outcome of `liquidate_position` for that position — and log its outcome;
then continue with the next position. -/
def sweep_positions (liq : VesuPosition → Except (List Char) ℕ)
    (pr : Prices) :
    List VesuPosition →
      Option (List VesuPosition × List (VesuPosition × SweepLog))
  | [] => some ([], [])
  | p :: rest =>
    if p.is_closed then sweep_positions liq pr rest
    else
      match p.is_liquidable pr with
      | none => none
      | some false =>
        (sweep_positions liq pr rest).map (fun x => (p :: x.1, x.2))
      | some true =>
        (sweep_positions liq pr rest).map
          (fun x => (p :: x.1, (p, liquidation_log (liq p)) :: x.2))

/-- The `interval.tick()` arm of `MonitoringService::run_forever`
(lines 100–128): if the startup barrier has not been signaled
(`wait_for_indexer.is_empty()`) or the ingestion channel holds unconsumed
events (`!rx_from_indexer.is_empty()`), skip the sweep entirely; otherwise
iterate the store's values.  The store is modeled by its value snapshot
`store`; the arm never mutates it. -/
def sweep_tick (liq : VesuPosition → Except (List Char) ℕ) (pr : Prices)
    (barrier_signaled : Bool)
    (queue : List (StarknetEventMetadata × PositionDelta))
    (store : List VesuPosition) : Option TickOutcome :=
  if !barrier_signaled || !queue.isEmpty then
    some { evaluated := [], logs := [], positions_after := store }
  else
    (sweep_positions liq pr store).map
      (fun x =>
        { evaluated := x.1, logs := x.2, positions_after := store })

/-- The `VesuEvent` payloads of `OutputEvent::Event` that the indexer loop
distinguishes (`src/services/indexer/mod.rs`, lines 72–83); the position
and liquidation events both carry a `PositionDelta` (their `From` impls). -/
inductive VesuEvent where
  | position (d : PositionDelta)
  | liquidation (d : PositionDelta)
  | context
deriving DecidableEq, Repr

/-- The `OutputEvent` messages the indexer loop receives. -/
inductive OutputEvent where
  | event (event_metadata : StarknetEventMetadata) (ev : VesuEvent)
  | synced
  | finalized
  | invalidated
deriving DecidableEq, Repr

/-- Whether a message is the distinguished `Synced` notification. -/
def OutputEvent.is_synced : OutputEvent → Bool
  | .synced => true
  | _ => false

/-- The `IndexerService` state the loop mutates: the resume block and the
one-shot barrier sender (`Option`, emptied by `take()` on first use). -/
structure IndexerState where
  current_block : ℕ
  meet_with_monitoring : Option Unit
deriving DecidableEq, Repr

/-- One iteration of `IndexerService::run_forever`'s message arm
(lines 69–95): position and liquidation events advance `current_block` and
forward the delta to monitoring; `Synced` fires the barrier if (and only
if) the sender is still present, taking it; context, finalized and
invalidated messages are ignored.  Returns the new state, the forwarded
messages, and whether the barrier was fired by this message. -/
def indexer_step (st : IndexerState) :
    OutputEvent →
      IndexerState × List (StarknetEventMetadata × PositionDelta) × Bool
  | .event event_metadata ev =>
    match ev with
    | .position d =>
      ({ st with current_block := event_metadata.block_number + 1 },
        [(event_metadata, d)], false)
    | .liquidation d =>
      ({ st with current_block := event_metadata.block_number + 1 },
        [(event_metadata, d)], false)
    | .context => (st, [], false)
  | .synced =>
    match st.meet_with_monitoring with
    | some _ => ({ st with meet_with_monitoring := none }, [], true)
    | none => (st, [], false)
  | .finalized => (st, [], false)
  | .invalidated => (st, [], false)

/-- Run the indexer loop over a finite prefix of its message stream,
counting how many messages fired the startup barrier. -/
def indexer_run (st : IndexerState) : List OutputEvent → IndexerState × ℕ
  | [] => (st, 0)
  | m :: ms =>
    let step := indexer_step st m
    let rest := indexer_run step.1 ms
    (rest.1, (if step.2.2 then 1 else 0) + rest.2)

/-! Theorems.  Concrete example inputs first. -/

/-- A price environment with every asset priced at one dollar. -/
def price_one : Prices := fun _ => 1

/-- A position with zero collateral amount and nonzero debt amount
(lltv one half, the `c1` failing input). -/
def c1_position : VesuPosition :=
  { user_address := 1
    pool_name := .Prime
    collateral :=
      { name := "Wrapped BTC", currency := .WBTC, address := 2, decimals := 8,
        amount := 0 }
    debt :=
      { name := "USD Coin", currency := .USDC, address := 3, decimals := 6,
        amount := 1 }
    lltv := 1 / 2 }

/-- A position with nonzero balances but `lltv = 0` (the `c2` failing
input: the denominator `collateral.amount * lltv` is zero). -/
def c2_position : VesuPosition :=
  { user_address := 1
    pool_name := .Prime
    collateral :=
      { name := "Wrapped BTC", currency := .WBTC, address := 2, decimals := 8,
        amount := 5 }
    debt :=
      { name := "USD Coin", currency := .USDC, address := 3, decimals := 6,
        amount := 1 }
    lltv := 0 }

/-- C1: the claim says `is_liquidable()` on a zero-collateral,
nonzero-debt position returns true without dividing by zero, the LTV
computation branching on the zero denominator.  The code does the
opposite: `is_liquidable` calls `ltv()` before its zero-ratio check, and
`ltv()` divides the debt USD value by the zero collateral USD value — a
panicking `rust_decimal` division (modeled `none`).  Evaluated at the
failing input: the position is zero-collateral and nonzero-debt with
nonzero lltv, yet `is_liquidable` panics instead of returning true. -/
theorem c1_zero_collateral_divides_by_zero :
    c1_position.collateral.amount = 0 ∧
    c1_position.debt.amount ≠ 0 ∧
    c1_position.lltv ≠ 0 ∧
    c1_position.is_liquidable price_one = none := by
  refine ⟨rfl, by norm_num [c1_position], by norm_num [c1_position], ?_⟩
  norm_num [VesuPosition.is_liquidable, VesuPosition.ltv, decDiv,
    VesuPosition.debt_value_in_usd, VesuPosition.collateral_value_in_usd,
    c1_position, price_one]

/-- C2: the claim says the zero-denominator case of
`liquidation_price()` is explicitly guarded rather than evaluated.  The
code evaluates `(debt.amount * debt_price) / (collateral.amount * lltv)`
unconditionally; at a position whose denominator is zero (here via
`lltv = 0`; a zero collateral amount behaves the same) the division is a
panicking `rust_decimal` division (modeled `none`), not a guarded branch. -/
theorem c2_liquidation_price_unguarded :
    c2_position.collateral.amount * c2_position.lltv = 0 ∧
    c2_position.liquidation_price price_one = none ∧
    c1_position.liquidation_price price_one = none := by
  refine ⟨by norm_num [c2_position], ?_, ?_⟩ <;>
    norm_num [VesuPosition.liquidation_price, decDiv, c1_position,
      c2_position, price_one]

/-- C3: `is_liquidable` with a positive lltv and a strictly positive
computed LTV ratio returns exactly the inclusive comparison
`ltv >= lltv` (so the boundary `ltv = lltv` is liquidable), and with
`lltv = 0` it returns false regardless of balances and prices. -/
theorem is_liquidable_threshold_spec (pr : Prices) (p : VesuPosition) :
    (∀ r : Decimal, 0 < p.lltv → p.ltv pr = some r → 0 < r →
      p.is_liquidable pr = some (decide (p.lltv ≤ r))) ∧
    (p.lltv = 0 → p.is_liquidable pr = some false) := by
  constructor
  · intro r hlltv hltv hr
    simp only [VesuPosition.is_liquidable, hltv, if_neg (ne_of_gt hlltv),
      if_neg (ne_of_gt hr)]
  · intro h
    simp only [VesuPosition.is_liquidable, if_pos h]

/-- The spec's boundary scenario: collateral 10, debt 6, lltv 0.6, both
prices one dollar. -/
def boundary_position : VesuPosition :=
  { user_address := 1
    pool_name := .Prime
    collateral :=
      { name := "Wrapped BTC", currency := .WBTC, address := 2, decimals := 8,
        amount := 10 }
    debt :=
      { name := "USD Coin", currency := .USDC, address := 3, decimals := 6,
        amount := 6 }
    lltv := 3 / 5 }

/-- C3 witness: at the boundary scenario the computed LTV is exactly 0.6
and the position is liquidable (inclusive comparison); with the lltv
zeroed out the same balances are not liquidable. -/
theorem is_liquidable_threshold_spec_witness :
    boundary_position.is_liquidable price_one = some true ∧
    ({ boundary_position with lltv := 0 } : VesuPosition).is_liquidable
        price_one = some false := by
  constructor
  · have h :=
      (is_liquidable_threshold_spec price_one boundary_position).1 (3 / 5)
        (by norm_num [boundary_position])
        (by
          norm_num [VesuPosition.ltv, decDiv, VesuPosition.debt_value_in_usd,
            VesuPosition.collateral_value_in_usd, boundary_position,
            price_one])
        (by norm_num)
    rw [h]
    simp only [Option.some.injEq, decide_eq_true_eq]
    norm_num [boundary_position]
  · exact (is_liquidable_threshold_spec price_one
      { boundary_position with lltv := 0 }).2 rfl

/-- C10: `update_from_delta` normalizes both raw deltas by the fixed
divisor `10 ^ 18` (`VESU_SCALE`), irrespective of the assets' configured
`decimals` fields: overriding the decimals of both assets with arbitrary
values changes nothing about the applied deltas. -/
theorem update_from_delta_scales_by_ten_pow_18 (p : VesuPosition)
    (d : PositionDelta) (c_dec d_dec : Decimal) :
    ((p.update_from_delta d).collateral.amount
        = p.collateral.amount + d.collateral_delta / 10 ^ 18) ∧
    ((p.update_from_delta d).debt.amount
        = p.debt.amount + d.debt_delta / 10 ^ 18) ∧
    (({ p with
          collateral := { p.collateral with decimals := c_dec }
          debt := { p.debt with decimals := d_dec } } :
        VesuPosition).update_from_delta d).collateral.amount
        = p.collateral.amount + d.collateral_delta / 10 ^ 18 ∧
    (({ p with
          collateral := { p.collateral with decimals := c_dec }
          debt := { p.debt with decimals := d_dec } } :
        VesuPosition).update_from_delta d).debt.amount
        = p.debt.amount + d.debt_delta / 10 ^ 18 := by
  refine ⟨rfl, rfl, rfl, rfl⟩

/-- The exact inverse of a delta event (the round-trip input: both signed
deltas negated). -/
def neg_delta (d : PositionDelta) : PositionDelta :=
  { d with
    collateral_delta := -d.collateral_delta
    debt_delta := -d.debt_delta }

/-- A folded delta sequence only moves the two balances, by the sum of the
scaled deltas. -/
theorem foldl_update_from_delta (ds : List PositionDelta) (p : VesuPosition) :
    ds.foldl VesuPosition.update_from_delta p =
      { p with
        collateral :=
          { p.collateral with
            amount := p.collateral.amount
              + (ds.map (fun d => scale d.collateral_delta VESU_SCALE)).sum }
        debt :=
          { p.debt with
            amount := p.debt.amount
              + (ds.map (fun d => scale d.debt_delta VESU_SCALE)).sum } } := by
  induction ds generalizing p with
  | nil => simp
  | cons d ds ih =>
    simp only [List.foldl_cons, List.map_cons, List.sum_cons, ih,
      VesuPosition.update_from_delta, Asset.apply_delta, add_assoc]

/-- C6: final balances after any delta sequence equal the starting
balances plus the sum of the scaled deltas; the fold is invariant under
permutation of the sequence; and applying a delta followed by its exact
inverse restores the position exactly (the balance arithmetic is exact
rational/decimal arithmetic). -/
theorem update_from_delta_sum_perm_roundtrip :
    (∀ (p : VesuPosition) (ds : List PositionDelta),
      (ds.foldl VesuPosition.update_from_delta p).collateral.amount
          = p.collateral.amount
            + (ds.map (fun d => scale d.collateral_delta VESU_SCALE)).sum ∧
      (ds.foldl VesuPosition.update_from_delta p).debt.amount
          = p.debt.amount
            + (ds.map (fun d => scale d.debt_delta VESU_SCALE)).sum) ∧
    (∀ (p : VesuPosition) (ds es : List PositionDelta), ds.Perm es →
      ds.foldl VesuPosition.update_from_delta p
        = es.foldl VesuPosition.update_from_delta p) ∧
    (∀ (p : VesuPosition) (d : PositionDelta),
      (p.update_from_delta d).update_from_delta (neg_delta d) = p) := by
  refine ⟨?_, ?_, ?_⟩
  · intro p ds
    rw [foldl_update_from_delta]
    exact ⟨rfl, rfl⟩
  · intro p ds es hperm
    rw [foldl_update_from_delta, foldl_update_from_delta,
      (hperm.map (fun d => scale d.collateral_delta VESU_SCALE)).sum_eq,
      (hperm.map (fun d => scale d.debt_delta VESU_SCALE)).sum_eq]
  · intro p d
    obtain ⟨ua, pn, c, dbt, l⟩ := p
    obtain ⟨cn, cc, ca, cd, cam⟩ := c
    obtain ⟨dn, dc, da, dd, dam⟩ := dbt
    simp only [VesuPosition.update_from_delta, Asset.apply_delta, neg_delta,
      scale, VesuPosition.mk.injEq, Asset.mk.injEq, and_true, true_and]
    constructor <;> ring

/-- A starting position for the C6 witness. -/
def c6_position : VesuPosition :=
  { user_address := 4
    pool_name := .Re7xBTC
    collateral :=
      { name := "tBTC", currency := .tBTC, address := 21, decimals := 18,
        amount := 2 }
    debt :=
      { name := "Lombard BTC", currency := .LBTC, address := 22, decimals := 8,
        amount := 1 }
    lltv := 4 / 5 }

/-- A first delta event for the C6 witness. -/
def c6_delta1 : PositionDelta :=
  { collateral_address := 21, debt_address := 22, user_address := 4
    collateral_delta := 7, debt_delta := 11 }

/-- A second delta event for the C6 witness. -/
def c6_delta2 : PositionDelta :=
  { collateral_address := 21, debt_address := 22, user_address := 4
    collateral_delta := -4, debt_delta := 5 }

/-- C6 witness: swapping two concrete deltas leaves the folded position
unchanged, and a concrete delta followed by its inverse restores the
concrete position. -/
theorem update_from_delta_sum_perm_roundtrip_witness :
    [c6_delta1, c6_delta2].foldl VesuPosition.update_from_delta c6_position
        = [c6_delta2, c6_delta1].foldl VesuPosition.update_from_delta
            c6_position ∧
    (c6_position.update_from_delta c6_delta1).update_from_delta
        (neg_delta c6_delta1) = c6_position :=
  ⟨update_from_delta_sum_perm_roundtrip.2.1 c6_position _ _
      (List.Perm.swap c6_delta2 c6_delta1 []),
    update_from_delta_sum_perm_roundtrip.2.2 c6_position c6_delta1⟩

/-- Running the indexer loop fires the barrier `1` time exactly when the
one-shot sender is still present and the message prefix holds a `Synced`
notification, `0` times otherwise. -/
theorem indexer_run_fires (msgs : List OutputEvent) (st : IndexerState) :
    (indexer_run st msgs).2
      = if st.meet_with_monitoring.isSome ∧ msgs.any OutputEvent.is_synced
        then 1 else 0 := by
  induction msgs generalizing st with
  | nil => simp [indexer_run]
  | cons m ms ih =>
    cases m with
    | event meta ev =>
      cases ev <;>
        simp [indexer_run, indexer_step, ih, OutputEvent.is_synced]
    | synced =>
      cases h : st.meet_with_monitoring with
      | some u =>
        simp [indexer_run, indexer_step, h, ih, OutputEvent.is_synced]
      | none =>
        simp [indexer_run, indexer_step, h, ih, OutputEvent.is_synced]
    | finalized =>
      simp [indexer_run, indexer_step, ih, OutputEvent.is_synced]
    | invalidated =>
      simp [indexer_run, indexer_step, ih, OutputEvent.is_synced]

/-- C7: starting from a fresh indexer state (the one-shot sender present),
any message sequence fires the startup barrier exactly once if it holds a
`Synced` notification and never otherwise; and once the sender has been
taken, a further `Synced` notification is a complete no-op (state
unchanged, nothing forwarded, nothing fired). -/
theorem barrier_fires_exactly_once (current_block : ℕ)
    (msgs : List OutputEvent) :
    ((indexer_run
          { current_block := current_block, meet_with_monitoring := some () }
          msgs).2
        = if msgs.any OutputEvent.is_synced then 1 else 0) ∧
    (∀ st : IndexerState, st.meet_with_monitoring = none →
      indexer_step st .synced = (st, [], false)) := by
  constructor
  · rw [indexer_run_fires]
    simp
  · intro st h
    simp [indexer_step, h]

/-- C7 witness: two consecutive `Synced` notifications fire the barrier
once in total, and a `Synced` notification at a taken sender is a no-op. -/
theorem barrier_fires_exactly_once_witness :
    ((indexer_run { current_block := 0, meet_with_monitoring := some () }
          [OutputEvent.synced, OutputEvent.synced]).2 = 1) ∧
    indexer_step { current_block := 5, meet_with_monitoring := none }
        .synced
      = ({ current_block := 5, meet_with_monitoring := none }, [], false) := by
  constructor
  · have h := (barrier_fires_exactly_once 0
      [OutputEvent.synced, OutputEvent.synced]).1
    simpa using h
  · exact (barrier_fires_exactly_once 0 []).2 _ rfl

/-- What a non-aborted walk over the store's values produces: the positions
evaluated are exactly the non-closed ones, and the logs record exactly one
liquidation attempt per liquidable position, in store order. -/
theorem sweep_positions_spec (liq : VesuPosition → Except (List Char) ℕ)
    (pr : Prices) (store : List VesuPosition) :
    ∀ x, sweep_positions liq pr store = some x →
      x.1 = store.filter (fun p => !p.is_closed) ∧
      x.2 = store.filterMap (fun p =>
        if p.is_closed then none
        else
          match p.is_liquidable pr with
          | some true => some (p, liquidation_log (liq p))
          | _ => none) := by
  induction store with
  | nil =>
    intro x h
    simp only [sweep_positions, Option.some.injEq] at h
    simp [← h]
  | cons p rest ih =>
    intro x h
    simp only [sweep_positions] at h
    by_cases hc : p.is_closed
    · rw [if_pos hc] at h
      have hx := ih x h
      simp [List.filter_cons, List.filterMap_cons, hc, hx.1, hx.2]
    · rw [if_neg hc] at h
      cases hl : p.is_liquidable pr with
      | none => rw [hl] at h; cases h
      | some b =>
        rw [hl] at h
        cases b with
        | false =>
          rcases Option.map_eq_some'.mp h with ⟨y, hy, rfl⟩
          have hx := ih y hy
          simp [List.filter_cons, List.filterMap_cons, hc, hl, hx.1, hx.2]
        | true =>
          rcases Option.map_eq_some'.mp h with ⟨y, hy, rfl⟩
          have hx := ih y hy
          simp [List.filter_cons, List.filterMap_cons, hc, hl, hx.1, hx.2]

/-- C5: a sweep tick performs zero liquidation evaluations when the
startup barrier has not been signaled, zero evaluations when the ingestion
channel holds at least one unconsumed event, and on a tick with the
barrier open and the channel empty it evaluates exactly the non-closed
positions of the store snapshot. -/
theorem sweep_tick_guard_spec (liq : VesuPosition → Except (List Char) ℕ)
    (pr : Prices) (barrier_signaled : Bool)
    (queue : List (StarknetEventMetadata × PositionDelta))
    (store : List VesuPosition) :
    (barrier_signaled = false →
      sweep_tick liq pr barrier_signaled queue store
        = some { evaluated := [], logs := [], positions_after := store }) ∧
    (queue ≠ [] →
      sweep_tick liq pr barrier_signaled queue store
        = some { evaluated := [], logs := [], positions_after := store }) ∧
    (∀ out, barrier_signaled = true → queue = [] →
      sweep_tick liq pr barrier_signaled queue store = some out →
      out.evaluated = store.filter (fun p => !p.is_closed)) := by
  refine ⟨?_, ?_, ?_⟩
  · intro hb
    simp [sweep_tick, hb]
  · intro hq
    simp [sweep_tick, hq]
  · intro out hb hq hrun
    subst hb; subst hq
    simp only [sweep_tick, Bool.not_true, List.isEmpty_nil, Bool.not_false,
      Bool.false_or, Bool.or_false, if_neg (by simp : ¬(false = true))] at hrun
    rcases Option.map_eq_some'.mp hrun with ⟨y, hy, rfl⟩
    exact (sweep_positions_spec liq pr store y hy).1

/-- C5 witness: with the barrier closed the tick is empty; with a backlog
the tick is empty; with the barrier open and the channel empty the tick
evaluates the (empty) snapshot. -/
theorem sweep_tick_guard_spec_witness :
    (sweep_tick (fun _ => Except.ok 0) price_one false [] [c6_position]
      = some { evaluated := [], logs := [],
               positions_after := [c6_position] }) ∧
    (sweep_tick (fun _ => Except.ok 0) price_one true
        [({ from_address := 0, block_number := 0 }, c6_delta1)] [c6_position]
      = some { evaluated := [], logs := [],
               positions_after := [c6_position] }) ∧
    (([] : List VesuPosition).filter (fun p => !p.is_closed) = []) := by
  refine ⟨?_, ?_, ?_⟩
  · exact (sweep_tick_guard_spec (fun _ => Except.ok 0) price_one false []
      [c6_position]).1 rfl
  · exact (sweep_tick_guard_spec (fun _ => Except.ok 0) price_one true
      [({ from_address := 0, block_number := 0 }, c6_delta1)]
      [c6_position]).2.1 (by simp)
  · have h := (sweep_tick_guard_spec (fun _ => Except.ok 0) price_one true
      [] ([] : List VesuPosition)).2.2
      { evaluated := [], logs := [], positions_after := [] } rfl rfl
    exact (h rfl).symm

/-- C8: on a non-skipped sweep tick, the logs record exactly one
liquidation attempt per liquidable position of the snapshot (no retry of a
failure within the tick, and a failure does not stop the walk over the
remaining positions); the position store the loop continues with is the
unchanged snapshot; and a failed submission is classified by its textual
payload — a payload containing `"not-undercollateralized"` is logged as
the warning signal, every other payload as the error signal. -/
theorem sweep_tick_failure_classification
    (liq : VesuPosition → Except (List Char) ℕ) (pr : Prices)
    (queue : List (StarknetEventMetadata × PositionDelta))
    (store : List VesuPosition) (out : TickOutcome)
    (hq : queue = [])
    (hrun : sweep_tick liq pr true queue store = some out) :
    out.logs = store.filterMap (fun p =>
        if p.is_closed then none
        else
          match p.is_liquidable pr with
          | some true => some (p, liquidation_log (liq p))
          | _ => none) ∧
    out.positions_after = store ∧
    (∀ e : List Char,
      liquidation_log (Except.error e)
        = if seq_contains NOT_UNDERCOLLATERALIZED e then
            SweepLog.warn_not_undercollateralized
          else SweepLog.error_could_not_liquidate e) := by
  subst hq
  simp only [sweep_tick, Bool.not_true, List.isEmpty_nil, Bool.not_false,
    Bool.false_or, Bool.or_false, if_neg (by simp : ¬(false = true))] at hrun
  rcases Option.map_eq_some'.mp hrun with ⟨y, hy, rfl⟩
  exact ⟨(sweep_positions_spec liq pr store y hy).2, rfl, fun e => rfl⟩

/-- A successful `PoolName::try_from` inverts `pool_address`. -/
theorem PoolName.try_from_pool_address {v : ℕ} {pool : PoolName}
    (h : PoolName.try_from v = some pool) : pool.pool_address = v := by
  unfold PoolName.try_from at h
  split_ifs at h <;> simp_all

/-- A successfully constructed position carries the fetched nonzero lltv. -/
theorem new_lltv (env : AssetsEnv) (fetch : Option Decimal)
    (event_metadata : StarknetEventMetadata) (event : PositionDelta)
    (p : VesuPosition)
    (hnew : VesuPosition.new env fetch event_metadata event = some p) :
    ∃ v, fetch = some v ∧ v ≠ 0 ∧ p.lltv = v := by
  cases hp : PoolName.try_from event_metadata.from_address with
  | none => simp [VesuPosition.new, hp] at hnew
  | some pool =>
    simp only [VesuPosition.new, hp] at hnew
    cases fetch with
    | none => simp [VesuPosition.update_lltv] at hnew
    | some v =>
      simp only [VesuPosition.update_lltv, Option.map_some'] at hnew
      split_ifs at hnew with hv
      have hp2 := Option.some.inj hnew
      exact ⟨v, rfl, hv, by rw [← hp2]; rfl⟩

/-- A successfully constructed position is stored under the same key the
monitoring loop computed from the triggering event, provided the asset
table round-trips the two event addresses. -/
theorem new_position_id (env : AssetsEnv) (fetch : Option Decimal)
    (event_metadata : StarknetEventMetadata) (event : PositionDelta)
    (pool : PoolName) (p : VesuPosition)
    (hpool : PoolName.try_from event_metadata.from_address = some pool)
    (hca : (Asset.from_address env event.collateral_address).address
      = event.collateral_address)
    (hda : (Asset.from_address env event.debt_address).address
      = event.debt_address)
    (hnew : VesuPosition.new env fetch event_metadata event = some p) :
    p.position_id
      = compute_position_key event_metadata.from_address event := by
  simp only [VesuPosition.new, hpool] at hnew
  cases fetch with
  | none => simp [VesuPosition.update_lltv] at hnew
  | some v =>
    simp only [VesuPosition.update_lltv, Option.map_some'] at hnew
    split_ifs at hnew with hv
    rw [← Option.some.inj hnew]
    simp only [VesuPosition.position_id, VesuPosition.update_from_delta,
      Asset.apply_delta, compute_position_key,
      PoolName.try_from_pool_address hpool]
    rw [hca, hda]

/-- Reading an inserted key back. -/
theorem store_insert_self (s : PosStore) (k : PoolName × PositionKey)
    (p : VesuPosition) : store_insert s k p k = some p := by
  simp [store_insert]

/-- Reading a removed key back. -/
theorem store_remove_self (s : PosStore) (k : PoolName × PositionKey) :
    store_remove s k k = none := by
  simp [store_remove]

/-- C4: after the monitoring loop processes a delta event, the position
stored at the event's key — if any — has strictly positive collateral (a
delta that drives the balance to zero or below removes the entry within
the same iteration, before the next message or tick is handled); and when
the key was absent beforehand, the stored outcome is exactly the freshly
constructed `VesuPosition::new` value (built from the event and this
event's pair-config fetch alone, never from previously stored state),
dropped again immediately if it is born closed.  The two address
hypotheses state that the asset table round-trips the event's addresses,
which is what makes the insertion key `position_id()` coincide with the
lookup key `compute_position_key`. -/
theorem process_delta_evicts_closed_and_creates_fresh
    (env : AssetsEnv) (fetch : Option Decimal) (s s2 : PosStore)
    (event_metadata : StarknetEventMetadata) (event : PositionDelta)
    (pool : PoolName)
    (hpool : PoolName.try_from event_metadata.from_address = some pool)
    (hca : (Asset.from_address env event.collateral_address).address
      = event.collateral_address)
    (hda : (Asset.from_address env event.debt_address).address
      = event.debt_address)
    (hrun : process_delta env fetch s event_metadata event = some s2) :
    (∀ p, s2 (pool, compute_position_key event_metadata.from_address event)
        = some p → p.is_closed = false) ∧
    (s (pool, compute_position_key event_metadata.from_address event)
        = none →
      s2 (pool, compute_position_key event_metadata.from_address event)
        = match VesuPosition.new env fetch event_metadata event with
          | some p => if p.is_closed then none else some p
          | none => none) := by
  simp only [process_delta, hpool, Option.some.injEq] at hrun
  subst hrun
  constructor
  · intro p hp
    cases hs : s (pool, compute_position_key event_metadata.from_address
        event) with
    | some q =>
      cases hcl : (q.update_from_delta event).is_closed with
      | true =>
        simp [hs, store_insert_self, hcl, store_remove_self] at hp
      | false =>
        simp [hs, store_insert_self, hcl, store_remove_self] at hp
        rw [← hp]
        exact hcl
    | none =>
      cases hnew : VesuPosition.new env fetch event_metadata event with
      | none => simp [hs, hnew] at hp
      | some np =>
        have hid := new_position_id env fetch event_metadata event pool np
          hpool hca hda hnew
        cases hcl : np.is_closed with
        | true =>
          simp [hs, hnew, hid, hcl, store_insert_self,
            store_remove_self] at hp
        | false =>
          simp [hs, hnew, hid, hcl, store_insert_self,
            store_remove_self] at hp
          rw [← hp]
          exact hcl
  · intro h0
    cases hnew : VesuPosition.new env fetch event_metadata event with
    | none => simp [h0, hnew]
    | some np =>
      have hid := new_position_id env fetch event_metadata event pool np
        hpool hca hda hnew
      cases hcl : np.is_closed with
      | true =>
        simp [h0, hnew, hid, hcl, store_insert_self, store_remove_self]
      | false =>
        simp [h0, hnew, hid, hcl, store_insert_self, store_remove_self]

/-- A liquidable position for the C8 witness: collateral 1, debt 1,
lltv one half, so at one-dollar prices the computed LTV of 1 clears the
threshold. -/
def c8_position : VesuPosition :=
  { user_address := 2
    pool_name := .Prime
    collateral :=
      { name := "Starknet Token", currency := .STRK, address := 11,
        decimals := 18, amount := 1 }
    debt :=
      { name := "USD Coin", currency := .USDC, address := 3, decimals := 6,
        amount := 1 }
    lltv := 1 / 2 }

/-- The failure payload the chain returns when the position is no longer
undercollateralized at execution time. -/
def c8_payload : List Char :=
  String.toList "reverted with reason: not-undercollateralized in contract"

/-- A liquidation submitter whose every submission fails with the
`c8_payload` rejection. -/
def c8_liq : VesuPosition → Except (List Char) ℕ :=
  fun _ => Except.error c8_payload

/-- The tick outcome the sweep produces on `[c8_position]` under
`c8_liq`. -/
def c8_out : TickOutcome :=
  { evaluated := [c8_position]
    logs := [(c8_position, SweepLog.warn_not_undercollateralized)]
    positions_after := [c8_position] }

/-- C8 witness: on a concrete tick whose single liquidable position fails
with a payload containing the marker, the theorem yields the warning
classification, one attempt, and the untouched store. -/
theorem sweep_tick_failure_classification_witness :
    c8_out.positions_after = [c8_position] ∧
    c8_out.logs = [(c8_position, SweepLog.warn_not_undercollateralized)] := by
  have hcl : c8_position.is_closed = false := by
    norm_num [VesuPosition.is_closed, c8_position]
  have hliq : c8_position.is_liquidable price_one = some true := by
    norm_num [VesuPosition.is_liquidable, VesuPosition.ltv, decDiv,
      VesuPosition.debt_value_in_usd, VesuPosition.collateral_value_in_usd,
      c8_position, price_one]
  have hcontains : seq_contains NOT_UNDERCOLLATERALIZED c8_payload
      = true := by decide
  have hlog : liquidation_log (c8_liq c8_position)
      = SweepLog.warn_not_undercollateralized := by
    simp [c8_liq, liquidation_log, hcontains]
  have hrun : sweep_tick c8_liq price_one true [] [c8_position]
      = some c8_out := by
    simp [sweep_tick, sweep_positions, hcl, hliq, hlog, c8_out]
  have h := sweep_tick_failure_classification c8_liq price_one []
    [c8_position] c8_out rfl hrun
  refine ⟨h.2.1, ?_⟩
  rw [h.1]
  simp [List.filterMap_cons, hcl, hliq, hlog]

/-- The asset-table environment for the monitoring witnesses: every
address maps to a USDC entry stored at address 7. -/
def c4_env : AssetsEnv :=
  { by_address := fun a =>
      { name := "w", ticker := .USDC, decimals := 6, address := a }
    by_ticker := fun _ =>
      { name := "w", ticker := .USDC, decimals := 6, address := 7 } }

/-- The witness delta event: both asset addresses 7, user 9, one full raw
unit (`10 ^ 18`) of collateral, no debt. -/
def c4_event : PositionDelta :=
  { collateral_address := 7, debt_address := 7, user_address := 9
    collateral_delta := 10 ^ 18, debt_delta := 0 }

/-- The witness event metadata: emitted by the Prime pool. -/
def c4_meta : StarknetEventMetadata :=
  { from_address := PoolName.Prime.pool_address, block_number := 100 }

/-- The empty store. -/
def c4_store : PosStore := fun _ => none

/-- The position `VesuPosition::new` builds for the witness event with a
fetched max LTV of one half. -/
def c4_new_position : VesuPosition :=
  { user_address := 9
    pool_name := .Prime
    collateral :=
      { name := "w", currency := .USDC, address := 7, decimals := 6,
        amount := 1 }
    debt :=
      { name := "w", currency := .USDC, address := 7, decimals := 6,
        amount := 0 }
    lltv := 1 / 2 }

/-- C4 witness: processing the witness event on the empty store leaves a
non-closed position at the event's key, obtained through the eviction
theorem at the concrete inputs. -/
theorem process_delta_evicts_closed_and_creates_fresh_witness :
    c4_new_position.is_closed = false := by
  have hpool : PoolName.try_from c4_meta.from_address
      = some PoolName.Prime := by decide
  have h := process_delta_evicts_closed_and_creates_fresh c4_env
    (some (1 / 2)) c4_store _ c4_meta c4_event .Prime hpool rfl rfl rfl
  have hnew : VesuPosition.new c4_env (some (1 / 2)) c4_meta c4_event
      = some c4_new_position := by
    simp only [VesuPosition.new, hpool, VesuPosition.update_lltv,
      Option.map_some']
    norm_num [Asset.from_address, c4_env, c4_meta, c4_event,
      VesuPosition.update_from_delta, Asset.apply_delta, scale, VESU_SCALE,
      c4_new_position]
  refine h.1 c4_new_position ?_
  have hstore : c4_store (PoolName.Prime,
      compute_position_key c4_meta.from_address c4_event) = none := rfl
  have hcl : c4_new_position.is_closed = false := by
    norm_num [VesuPosition.is_closed, c4_new_position]
  have hid : c4_new_position.position_id
      = compute_position_key c4_meta.from_address c4_event := rfl
  simp only [hstore, hnew, hid, hcl, store_insert_self, store_remove_self]
  simp [store_insert]

/-- Any surviving lookup in the one-step store image is either the value
just inserted or an untouched entry of the previous store. -/
theorem store_lookup_cases (s : PosStore) (k kin krm : PoolName × PositionKey)
    (pin : VesuPosition) (b : Bool) (p : VesuPosition)
    (hp : (if b then store_remove (store_insert s kin pin) krm
           else store_insert s kin pin) k = some p) :
    p = pin ∨ s k = some p := by
  have hins : store_insert s kin pin k = some p →
      p = pin ∨ s k = some p := by
    intro h
    simp only [store_insert] at h
    by_cases h2 : k = kin
    · rw [if_pos h2] at h
      exact Or.inl (Option.some.inj h).symm
    · rw [if_neg h2] at h
      exact Or.inr h
  cases b with
  | false =>
    simp only [Bool.false_eq_true, if_false] at hp
    exact hins hp
  | true =>
    simp only [eq_self_iff_true, if_true] at hp
    simp only [store_remove] at hp
    by_cases h1 : k = krm
    · rw [if_pos h1] at hp
      exact Option.noConfusion hp
    · rw [if_neg h1] at hp
      exact hins hp

/-- C9: processing a delta preserves the invariant that every stored
position has strictly positive lltv, under the hypothesis that every
successful pair-config fetch returns a non-negative max LTV (on-chain
LTVs are unsigned fractions): `VesuPosition::new` returns an error both
when the fetch itself fails and when the fetch succeeds with a max LTV of
zero (the `ensure!`), and the monitoring loop inserts nothing on a
construction error — so the `lltv == 0` early-return branch of
`is_liquidable` is unreachable for stored positions. -/
theorem stored_positions_lltv_pos
    (env : AssetsEnv) (fetch : Option Decimal) (s s2 : PosStore)
    (event_metadata : StarknetEventMetadata) (event : PositionDelta)
    (hfetch : ∀ v, fetch = some v → 0 ≤ v)
    (hs : ∀ k p, s k = some p → 0 < p.lltv)
    (hrun : process_delta env fetch s event_metadata event = some s2) :
    (∀ k p, s2 k = some p → 0 < p.lltv) ∧
    (∀ (env2 : AssetsEnv) (meta2 : StarknetEventMetadata)
        (event2 : PositionDelta),
      VesuPosition.new env2 none meta2 event2 = none) ∧
    (∀ (env2 : AssetsEnv) (meta2 : StarknetEventMetadata)
        (event2 : PositionDelta),
      VesuPosition.new env2 (some 0) meta2 event2 = none) := by
  refine ⟨?_, ?_, ?_⟩
  · cases hpool : PoolName.try_from event_metadata.from_address with
    | none => simp [process_delta, hpool] at hrun
    | some pool =>
      simp only [process_delta, hpool, Option.some.injEq] at hrun
      subst hrun
      intro k p hp
      cases hsk : s (pool,
          compute_position_key event_metadata.from_address event) with
      | some q =>
        simp only [hsk] at hp
        rcases store_lookup_cases s k _ _ _ _ p hp with rfl | hold
        · exact hs _ q hsk
        · exact hs k p hold
      | none =>
        cases hnew : VesuPosition.new env fetch event_metadata event with
        | none =>
          simp [hsk, hnew] at hp
          exact hs k p hp
        | some np =>
          obtain ⟨v, hv1, hv2, hv3⟩ :=
            new_lltv env fetch event_metadata event np hnew
          have hvpos : 0 < np.lltv := by
            rw [hv3]
            exact lt_of_le_of_ne (hfetch v hv1) (Ne.symm hv2)
          simp only [hsk, hnew] at hp
          rcases store_lookup_cases s k _ _ _ _ p hp with rfl | hold
          · exact hvpos
          · exact hs k p hold
  · intro env2 meta2 event2
    cases hp2 : PoolName.try_from meta2.from_address with
    | none => simp [VesuPosition.new, hp2]
    | some pool2 => simp [VesuPosition.new, hp2, VesuPosition.update_lltv]
  · intro env2 meta2 event2
    cases hp2 : PoolName.try_from meta2.from_address with
    | none => simp [VesuPosition.new, hp2]
    | some pool2 => simp [VesuPosition.new, hp2, VesuPosition.update_lltv]

/-- C9 witness: the theorem applied on the empty store with a fetched max
LTV of one: construction fails outright on a failed fetch and on a
fetched max LTV of zero. -/
theorem stored_positions_lltv_pos_witness :
    VesuPosition.new c4_env none c4_meta c4_event = none ∧
    VesuPosition.new c4_env (some 0) c4_meta c4_event = none := by
  have h := stored_positions_lltv_pos c4_env (some 1) c4_store _ c4_meta
    c4_event
    (fun v hv => by
      obtain rfl : (1 : Decimal) = v := Option.some.inj hv
      norm_num)
    (fun k p hp => Option.noConfusion hp) rfl
  exact ⟨h.2.1 c4_env c4_meta c4_event, h.2.2 c4_env c4_meta c4_event⟩

end VesuLiquidator
